import Mathlib

/-!
Shallow embedding of the consumer-offset collection core
(package conoffsetcollect, file collect.go).

External collaborators (kafka/zookeeper clients, the metric SDK, the
logger) are modelled as an environment of oracles; the side effects that
matter for the specification (calls issued, tasks spawned, log lines,
metric records emitted, handles closed) are collected into an explicit
event trace.  Go maps are modelled as association lists in iteration
order (keys distinct).
-/

namespace ConOffsetCollect

/-- The substructure within the consumer group structure
(Go: TopicPartitions, a map from topic to a slice of int32 partitions). -/
abbrev TopicPartitions := List (String × List Int)

/-- One output row (Go struct partitionOffsets).  In the Go struct the
partition id is stored as its decimal string rendering for attribute
output; it is modelled here as the integer id itself, which carries the
same information.  Pointer-typed gauge fields become Option Int. -/
structure partitionOffsets where
  Topic : String
  Partition : Int
  ConsumerOffset : Option Int
  HighWaterMark : Option Int
  ConsumerLag : Option Int
  deriving DecidableEq, Repr

/-- Mapping from (topic, partition) to an optional committed offset;
the value is optional because a partition may have no committed offset
for the group.  Association list with distinct keys, iteration order. -/
abbrev OffsetSnapshot := List ((String × Int) × Option Int)

/-- Mapping from (topic, partition) to an optional high-water mark. -/
abbrev WatermarkSnapshot := List ((String × Int) × Option Int)

/-- A consumer group descriptor returned by DescribeConsumerGroups:
group identifier plus member client identifiers. -/
structure GroupDescriptor where
  groupId : String
  members : List String
  deriving DecidableEq, Repr

/-- Configuration surface consumed by Collect (Go: args.GlobalArgs).
The compiled regular expression is modelled by its matching predicate
on strings (Go: ConsumerGroupRegex.MatchString); the consumer_groups
map is an association list in iteration order. -/
structure Args where
  consumerGroupRegex : Option (String → Bool)
  consumerGroups : List (String × List String)
  clusterName : String

/-- Observable events of one Collect invocation, in program order. -/
inductive Event where
  | listGroups
  | describeGroups (ids : List String)
  | spawnTask (groupId : String) (members : List String)
  | logUnmatched (groupIds : List String)
  | logSkipped (groupIds : List String)
  | waitJoin
  | logDeprecated
  | logNoTopics (group : String)
  | offsetRead (group : String)
  | logOffsetErr (group : String) (msg : String)
  | watermarkRead (group : String)
  | logWatermarkErr (group : String) (msg : String)
  | emitRecord (group : String) (r : partitionOffsets)
  | logMarshalErr (group : String) (r : partitionOffsets)
  | logSetMetricsErr (group : String) (msg : String)
  | closeAdmin
  | logCloseAdminErr (msg : String)
  | closeClient
  | logCloseClientErr (msg : String)
  deriving DecidableEq, Repr

/-- Environment of external collaborators, by contract.  ListConsumerGroups
returns the key sequence of the returned Go map in iteration order (each
key once); getConsumerOffsets and getHighWaterMarks are the offset and
watermark readers defined outside this file. -/
structure Env where
  createClient : Except String Unit
  closeClientErr : Option String
  createClusterAdmin : Except String Unit
  closeAdminErr : Option String
  listConsumerGroups : Except String (List String)
  describeConsumerGroups : List String → Except String (List GroupDescriptor)
  fillTopicPartitions : String → List String → TopicPartitions
  getConsumerOffsets : String → TopicPartitions → Except String OffsetSnapshot
  getHighWaterMarks : TopicPartitions → Except String WatermarkSnapshot
  entity : String → Except String Unit
  marshalOk : String → partitionOffsets → Bool

/-- Modelled from the spec: the Lag Assembler helper operating on a
snapshot (the function populateOffsetStructs it serves is defined in a
repository file not present under src/).  The value for a
(topic, partition) key: present only when the key is in the snapshot's
domain and its stored optional value is present (a lookup returning
"no offset" yields an absent value rather than zero). -/
def lookupVal (s : List ((String × Int) × Option Int)) (k : String × Int) : Option Int :=
  match s.find? (fun p => decide (p.1 = k)) with
  | some p => p.2
  | none => none

/-- Modelled from the spec: the ordered union of the (topic, partition)
domains of the two snapshots, keys of the offset snapshot first, then
the watermark-only keys, used by the Lag Assembler. -/
def unionKeys (off hwm : List ((String × Int) × Option Int)) : List (String × Int) :=
  off.map Prod.fst ++ (hwm.map Prod.fst).filter (fun k => !(decide (k ∈ off.map Prod.fst)))

/-- Modelled from the spec: populateOffsetStructs, the Lag Assembler
(defined in a repository file not present under src/).  Output: one
partitionOffsets record per key in the union of both snapshots'
(topic, partition) domains; consumer-offset = value from the offset
snapshot or absent; high-water-mark = value from the watermark snapshot
or absent; lag = high-water-mark minus consumer-offset when both are
present, else absent; no clamping of negative results. -/
def populateOffsetStructs (off : OffsetSnapshot) (hwm : WatermarkSnapshot) :
    List partitionOffsets :=
  (unionKeys off hwm).map fun k =>
    { Topic := k.1
      Partition := k.2
      ConsumerOffset := lookupVal off k
      HighWaterMark := lookupVal hwm k
      ConsumerLag :=
        match lookupVal off k, lookupVal hwm k with
        | some o, some h => some (h - o)
        | _, _ => none }

/-- Accumulator state of the regex-mode selection loop (Go locals
numCollected, skippedConsumerGroups, unmatchedConsumerGroups, and the
set of groups a goroutine was spawned for). -/
structure SelState where
  numCollected : Nat
  skipped : List String
  unmatched : List String
  spawned : List GroupDescriptor
  deriving Repr

/-- One iteration of the regex-mode selection loop (collect.go lines
73-85): on a regex match increment numCollected, spawn unless the count
exceeds 200 (then append to the skipped list); otherwise append to the
unmatched list. -/
def selectStep (m : String → Bool) (st : SelState) (g : GroupDescriptor) : SelState :=
  if m g.groupId then
    if st.numCollected + 1 > 200 then
      { st with numCollected := st.numCollected + 1, skipped := st.skipped ++ [g.groupId] }
    else
      { st with numCollected := st.numCollected + 1, spawned := st.spawned ++ [g] }
  else
    { st with unmatched := st.unmatched ++ [g.groupId] }

/-- The whole regex-mode selection loop over the described groups. -/
def selectGroups (m : String → Bool) (gs : List GroupDescriptor) : SelState :=
  gs.foldl (selectStep m) ⟨0, [], [], []⟩

/-- Regex-mode body of Collect (collect.go lines 55-95): list groups,
build the identifier list with make(len) followed by appends, describe,
run the selection loop spawning one task per selected group, log the
unmatched and skipped lists once each when non-empty, wait for all
spawned tasks to join. -/
def regexMode (m : String → Bool) (env : Env) : Except String Unit × List Event :=
  match env.listConsumerGroups with
  | .error e =>
    (.error ("failed to get list of consumer groups: " ++ e), [Event.listGroups])
  | .ok keys =>
    let cgList := List.replicate keys.length "" ++ keys
    match env.describeConsumerGroups cgList with
    | .error e =>
      (.error ("failed to get consumer group descriptions: " ++ e),
        [Event.listGroups, Event.describeGroups cgList])
    | .ok gs =>
      let st := selectGroups m gs
      (.ok (),
        [Event.listGroups, Event.describeGroups cgList]
          ++ st.spawned.map (fun d => Event.spawnTask d.groupId d.members)
          ++ (if st.unmatched.isEmpty then [] else [Event.logUnmatched st.unmatched])
          ++ (if st.skipped.isEmpty then [] else [Event.logSkipped st.skipped])
          ++ [Event.waitJoin])

/-- setMetrics (collect.go lines 130-149): create the group entity
(error returned to the caller), then for each record create a metric
set and marshal it, logging and continuing on a marshal error. -/
def setMetrics (env : Env) (group : String) (records : List partitionOffsets) :
    Except String Unit × List Event :=
  match env.entity group with
  | .error e => (.error e, [])
  | .ok _ =>
    (.ok (),
      records.map fun r =>
        if env.marshalOk group r then Event.emitRecord group r
        else Event.logMarshalErr group r)

/-- The offset snapshot the static loop hands to populateOffsetStructs:
the result of getConsumerOffsets, or — per the spec contract of the
Offset Reader, whose body lives outside this file — an entirely absent
(empty) snapshot when the read failed. -/
def groupOffsets (env : Env) (g : String) (tps : TopicPartitions) : OffsetSnapshot :=
  match env.getConsumerOffsets g tps with
  | .ok d => d
  | .error _ => []

/-- The watermark snapshot the static loop hands to
populateOffsetStructs; empty when the read failed, as for groupOffsets. -/
def groupWatermarks (env : Env) (tps : TopicPartitions) : WatermarkSnapshot :=
  match env.getHighWaterMarks tps with
  | .ok d => d
  | .error _ => []

/-- One iteration of the static-mode loop (collect.go lines 100-121)
for configured group g with its topic list.  A group resolving to an
empty TopicPartitions is logged and skipped.  A failed offset or
watermark read is logged with the group identifier and the loop
carries on with the empty snapshot.  The offset read strictly precedes
the watermark read. -/
def staticGroupEvents (env : Env) (g : String) (topics : List String) : List Event :=
  let tps := env.fillTopicPartitions g topics
  if tps.length = 0 then
    [Event.logNoTopics g]
  else
    (Event.offsetRead g ::
      (match env.getConsumerOffsets g tps with
       | .ok _ => []
       | .error e => [Event.logOffsetErr g e]))
    ++ (Event.watermarkRead g ::
      (match env.getHighWaterMarks tps with
       | .ok _ => []
       | .error e => [Event.logWatermarkErr g e]))
    ++ (match setMetrics env g
          (populateOffsetStructs (groupOffsets env g tps) (groupWatermarks env tps)) with
        | (.error e, ev) => ev ++ [Event.logSetMetricsErr g e]
        | (.ok _, ev) => ev)

/-- The static-mode loop over the configured consumer_groups map, in
iteration order.  Per-group failures never abort the loop. -/
def staticMode (env : Env) (cgs : List (String × List String)) : List Event :=
  (cgs.map (fun p => staticGroupEvents env p.1 p.2)).flatten

/-- Body of Collect after both clients were created (collect.go lines
49-126).  errVar is the value of the Go variable err at line 50: the
regex branch re-checks it (line 51) and would return the
cluster-admin error if it were non-nil. -/
def collectBody (a : Args) (env : Env) (errVar : Option String) :
    Except String Unit × List Event :=
  match a.consumerGroupRegex with
  | some m =>
    match errVar with
    | some e => (.error ("failed to create cluster admin from client: " ++ e), [])
    | none => regexMode m env
  | none =>
    if a.consumerGroups.length ≠ 0 then
      (.ok (), Event.logDeprecated :: staticMode env a.consumerGroups)
    else
      (.error "if consumer_offset is set, either consumer_group_regex or consumer_groups (deprecated) must also be set", [])

/-- Events of the deferred client.Close call (a close error is logged
at debug level). -/
def closeClientEvents (env : Env) : List Event :=
  match env.closeClientErr with
  | none => [Event.closeClient]
  | some e => [Event.closeClient, Event.logCloseClientErr e]

/-- Events of the deferred clusterAdmin.Close call. -/
def closeAdminEvents (env : Env) : List Event :=
  match env.closeAdminErr with
  | none => [Event.closeAdmin]
  | some e => [Event.closeAdmin, Event.logCloseAdminErr e]

/-- Collect (collect.go lines 28-127): create the client (deferring its
Close), create the cluster admin (deferring its Close), then run the
mode dispatch.  After the admin-creation error check returns on a
non-nil err, the err variable is nil, so the body receives errVar =
none.  Deferred closes run last, in LIFO order (admin first). -/
def Collect (a : Args) (env : Env) : Except String Unit × List Event :=
  match env.createClient with
  | .error e => (.error e, [])
  | .ok _ =>
    match env.createClusterAdmin with
    | .error e => (.error e, closeClientEvents env)
    | .ok _ =>
      let body := collectBody a env none
      (body.1, body.2 ++ closeAdminEvents env ++ closeClientEvents env)

/-! ## Helper lemmas -/

/-- Closed form of the regex-mode selection loop, for an arbitrary
starting state: the spawned list gains the first 200 - numCollected
matching descriptors, the skipped list the identifiers of the rest,
and the unmatched list the identifiers of the non-matching groups. -/
theorem foldl_selectStep (m : String → Bool) (gs : List GroupDescriptor) (st : SelState) :
    gs.foldl (selectStep m) st =
      ⟨st.numCollected + (gs.filter (fun d => m d.groupId)).length,
       st.skipped ++
         ((gs.filter (fun d => m d.groupId)).drop (200 - st.numCollected)).map GroupDescriptor.groupId,
       st.unmatched ++ (gs.filter (fun d => !(m d.groupId))).map GroupDescriptor.groupId,
       st.spawned ++ (gs.filter (fun d => m d.groupId)).take (200 - st.numCollected)⟩ := by
  induction gs generalizing st with
  | nil => simp
  | cons g gs ih =>
    by_cases hm : m g.groupId
    · by_cases hn : st.numCollected + 1 > 200
      · have h0 : 200 - st.numCollected = 0 := by omega
        have h1 : 200 - (st.numCollected + 1) = 0 := by omega
        rw [List.foldl_cons, selectStep, if_pos hm, if_pos hn, ih]
        simp [hm, h0, h1]
        omega
      · have hs : 200 - st.numCollected = (200 - (st.numCollected + 1)) + 1 := by omega
        rw [List.foldl_cons, selectStep, if_pos hm, if_neg hn, ih]
        simp [hm, hs, List.take_succ_cons, List.drop_succ_cons]
        omega
    · rw [List.foldl_cons, selectStep, if_neg hm, ih]
      simp [hm]

/-- Closed form of selectGroups. -/
theorem selectGroups_eq (m : String → Bool) (gs : List GroupDescriptor) :
    selectGroups m gs =
      ⟨(gs.filter (fun d => m d.groupId)).length,
       ((gs.filter (fun d => m d.groupId)).drop 200).map GroupDescriptor.groupId,
       (gs.filter (fun d => !(m d.groupId))).map GroupDescriptor.groupId,
       (gs.filter (fun d => m d.groupId)).take 200⟩ := by
  rw [selectGroups, foldl_selectStep]
  simp

/-- Extracts the group identifier of a spawn event. -/
def spawnedOf : Event → Option String
  | .spawnTask g _ => some g
  | _ => none

/-- The successful regex-mode trace, in closed form. -/
theorem regexMode_ok (m : String → Bool) (env : Env) (keys : List String)
    (gs : List GroupDescriptor)
    (hl : env.listConsumerGroups = .ok keys)
    (hd : env.describeConsumerGroups (List.replicate keys.length "" ++ keys) = .ok gs) :
    regexMode m env =
      (.ok (),
        [Event.listGroups, Event.describeGroups (List.replicate keys.length "" ++ keys)]
          ++ ((gs.filter (fun d => m d.groupId)).take 200).map
               (fun d => Event.spawnTask d.groupId d.members)
          ++ (if (gs.filter (fun d => !(m d.groupId))).map GroupDescriptor.groupId = []
              then []
              else [Event.logUnmatched
                      ((gs.filter (fun d => !(m d.groupId))).map GroupDescriptor.groupId)])
          ++ (if ((gs.filter (fun d => m d.groupId)).drop 200).map GroupDescriptor.groupId = []
              then []
              else [Event.logSkipped
                      (((gs.filter (fun d => m d.groupId)).drop 200).map GroupDescriptor.groupId)])
          ++ [Event.waitJoin]) := by
  rw [regexMode, hl]
  simp only [hd, selectGroups_eq]
  simp [List.isEmpty_iff]

/-- On the successful regex path, Collect runs regexMode followed by the
deferred closes. -/
theorem Collect_regex (a : Args) (env : Env) (m : String → Bool)
    (hc : env.createClient = .ok ())
    (ha : env.createClusterAdmin = .ok ())
    (hr : a.consumerGroupRegex = some m) :
    Collect a env =
      ((regexMode m env).1,
       (regexMode m env).2 ++ closeAdminEvents env ++ closeClientEvents env) := by
  rw [Collect, hc, ha, collectBody, hr]

/-- Membership in the deferred admin-close events. -/
theorem mem_closeAdminEvents {env : Env} {e : Event} (h : e ∈ closeAdminEvents env) :
    e = Event.closeAdmin ∨ ∃ s, e = Event.logCloseAdminErr s := by
  unfold closeAdminEvents at h
  cases hh : env.closeAdminErr <;> rw [hh] at h <;> simp_all
  tauto

/-- Membership in the deferred client-close events. -/
theorem mem_closeClientEvents {env : Env} {e : Event} (h : e ∈ closeClientEvents env) :
    e = Event.closeClient ∨ ∃ s, e = Event.logCloseClientErr s := by
  unfold closeClientEvents at h
  cases hh : env.closeClientErr <;> rw [hh] at h <;> simp_all
  tauto

/-- The spawn events of the regex loop project back to the spawned
group identifiers. -/
theorem filterMap_spawnedOf_spawnMap (l : List GroupDescriptor) :
    (l.map (fun d => Event.spawnTask d.groupId d.members)).filterMap spawnedOf
      = l.map GroupDescriptor.groupId := by
  induction l with
  | nil => rfl
  | cons d l ih => simp [spawnedOf, ih]

/-- The deferred close events contain no spawn event. -/
theorem filterMap_spawnedOf_closeAdmin (env : Env) :
    (closeAdminEvents env).filterMap spawnedOf = [] := by
  unfold closeAdminEvents
  cases env.closeAdminErr <;> simp [spawnedOf]

/-- The deferred close events contain no spawn event. -/
theorem filterMap_spawnedOf_closeClient (env : Env) :
    (closeClientEvents env).filterMap spawnedOf = [] := by
  unfold closeClientEvents
  cases env.closeClientErr <;> simp [spawnedOf]

/-- No skip-log event among the spawn events. -/
theorem logSkipped_not_mem_spawnMap (l : List GroupDescriptor) (n : Nat) (x : List String) :
    Event.logSkipped x ∉ (l.map (fun d => Event.spawnTask d.groupId d.members)).take n := by
  intro h
  rcases List.mem_map.mp (List.mem_of_mem_take h) with ⟨d, _, hd⟩
  cases hd

/-- Skip-log events are never counted among the spawn events. -/
theorem count_logSkipped_spawnMap (l : List GroupDescriptor) (n : Nat) (x : List String) :
    List.count (Event.logSkipped x)
      ((l.map (fun d => Event.spawnTask d.groupId d.members)).take n) = 0 :=
  List.count_eq_zero.mpr (logSkipped_not_mem_spawnMap l n x)

/-- On the static path, Collect logs the deprecation warning, runs the
static loop, and always falls through to the final return nil. -/
theorem Collect_static (a : Args) (env : Env)
    (hc : env.createClient = .ok ())
    (ha : env.createClusterAdmin = .ok ())
    (hr : a.consumerGroupRegex = none)
    (hnz : a.consumerGroups.length ≠ 0) :
    Collect a env =
      (.ok (),
        (Event.logDeprecated :: staticMode env a.consumerGroups)
          ++ closeAdminEvents env ++ closeClientEvents env) := by
  rw [Collect, hc, ha, collectBody, hr, if_pos hnz]

/-- The group identifier a static-mode event is attributed to. -/
def evGroup : Event → Option String
  | .logNoTopics g => some g
  | .offsetRead g => some g
  | .logOffsetErr g _ => some g
  | .watermarkRead g => some g
  | .logWatermarkErr g _ => some g
  | .emitRecord g _ => some g
  | .logMarshalErr g _ => some g
  | .logSetMetricsErr g _ => some g
  | _ => none

/-- Every event produced by setMetrics is an emit or marshal-error
event for one of the submitted records. -/
theorem mem_setMetrics_snd {env : Env} {g : String} {records : List partitionOffsets}
    {e : Event} (he : e ∈ (setMetrics env g records).2) :
    ∃ r ∈ records, e = Event.emitRecord g r ∨ e = Event.logMarshalErr g r := by
  unfold setMetrics at he
  cases hg : env.entity g <;> rw [hg] at he <;> simp at he
  rcases he with ⟨r, hr, hfr⟩
  by_cases hm : env.marshalOk g r = true
  · rw [if_pos hm] at hfr
    exact ⟨r, hr, Or.inl hfr.symm⟩
  · rw [if_neg hm] at hfr
    exact ⟨r, hr, Or.inr hfr.symm⟩

/-- Every event of one group's static-mode iteration is attributed to
that group. -/
theorem evGroup_staticGroupEvents {env : Env} {g : String} {topics : List String}
    {e : Event} (he : e ∈ staticGroupEvents env g topics) :
    evGroup e = some g := by
  unfold staticGroupEvents at he
  by_cases h0 : (env.fillTopicPartitions g topics).length = 0
  · rw [if_pos h0] at he
    simp at he
    rw [he]; rfl
  · rw [if_neg h0] at he
    simp only [List.mem_append, List.mem_cons] at he
    rcases he with ((he | he) | (he | he)) | he
    · rw [he]; rfl
    · cases hoff : env.getConsumerOffsets g (env.fillTopicPartitions g topics) <;>
        rw [hoff] at he <;> simp at he
      rw [he]; rfl
    · rw [he]; rfl
    · cases hhwm : env.getHighWaterMarks (env.fillTopicPartitions g topics) <;>
        rw [hhwm] at he <;> simp at he
      rw [he]; rfl
    · rcases hsm : setMetrics env g
          (populateOffsetStructs
            (groupOffsets env g (env.fillTopicPartitions g topics))
            (groupWatermarks env (env.fillTopicPartitions g topics))) with ⟨res, ev⟩
      cases res <;> rw [hsm] at he <;> simp at he
      · rcases he with he | he
        · rcases mem_setMetrics_snd (by rw [hsm]; exact he) with ⟨r, _, hh | hh⟩ <;>
            rw [hh] <;> rfl
        · rw [he]; rfl
      · rcases mem_setMetrics_snd (by rw [hsm]; exact he) with ⟨r, _, hh | hh⟩ <;>
          rw [hh] <;> rfl

/-- Every event of the static loop belongs to some configured group's
iteration. -/
theorem mem_staticMode {env : Env} {cgs : List (String × List String)} {e : Event}
    (he : e ∈ staticMode env cgs) :
    ∃ x ∈ cgs, e ∈ staticGroupEvents env x.1 x.2 := by
  unfold staticMode at he
  rcases List.mem_flatten.mp he with ⟨l, hl, hel⟩
  rcases List.mem_map.mp hl with ⟨x, hx, rfl⟩
  exact ⟨x, hx, hel⟩

/-- An event attributed to a group outside the configured list never
appears in the static loop's trace. -/
theorem not_mem_staticMode {env : Env} {cgs : List (String × List String)}
    {e : Event} {g : String} (htag : evGroup e = some g)
    (hg : ∀ x ∈ cgs, x.1 ≠ g) : e ∉ staticMode env cgs := by
  intro he
  rcases mem_staticMode he with ⟨x, hx, hseg⟩
  have h2 := evGroup_staticGroupEvents hseg
  rw [htag] at h2
  exact hg x hx (Option.some.inj h2).symm

/-- In an association list with distinct keys, a key determines its
value. -/
theorem key_unique {α β : Type} {l : List (α × β)} (hnd : (l.map Prod.fst).Nodup)
    {g : α} {t t' : β} (h1 : (g, t) ∈ l) (h2 : (g, t') ∈ l) : t = t' := by
  induction l with
  | nil => cases h1
  | cons hd tl ih =>
    rw [List.map_cons, List.nodup_cons] at hnd
    rcases List.mem_cons.mp h1 with he1 | he1 <;> rcases List.mem_cons.mp h2 with he2 | he2
    · exact congrArg Prod.snd (he1.trans he2.symm)
    · exfalso
      apply hnd.1
      have hg : hd.1 = g := by rw [← he1]
      rw [hg]
      exact List.mem_map_of_mem Prod.fst he2
    · exfalso
      apply hnd.1
      have hg : hd.1 = g := by rw [← he2]
      rw [hg]
      exact List.mem_map_of_mem Prod.fst he1
    · exact ih hnd.2 he1 he2

/-- The number of occurrences of a group-tagged event in the whole
static loop equals its count in that group's own iteration. -/
theorem count_staticMode {env : Env} {cgs : List (String × List String)}
    {g : String} {topics : List String} {e : Event}
    (htag : evGroup e = some g)
    (hmem : (g, topics) ∈ cgs)
    (hnd : (cgs.map Prod.fst).Nodup) :
    (staticMode env cgs).count e = (staticGroupEvents env g topics).count e := by
  induction cgs with
  | nil => cases hmem
  | cons hd tl ih =>
    rw [List.map_cons, List.nodup_cons] at hnd
    have hsplit : staticMode env (hd :: tl)
        = staticGroupEvents env hd.1 hd.2 ++ staticMode env tl := by
      simp [staticMode]
    rw [hsplit, List.count_append]
    rcases List.mem_cons.mp hmem with he | he
    · have h1 : hd.1 = g := by rw [← he]
      have h2 : hd.2 = topics := by rw [← he]
      have hz : (staticMode env tl).count e = 0 := by
        rw [List.count_eq_zero]
        refine not_mem_staticMode htag ?_
        intro x hx hxg
        apply hnd.1
        rw [h1, ← hxg]
        exact List.mem_map_of_mem Prod.fst hx
      rw [hz, h1, h2]
      omega
    · have hg : hd.1 ≠ g := by
        intro hh
        apply hnd.1
        rw [hh]
        exact List.mem_map_of_mem Prod.fst he
      have hz : (staticGroupEvents env hd.1 hd.2).count e = 0 := by
        rw [List.count_eq_zero]
        intro hmem2
        have h2 := evGroup_staticGroupEvents hmem2
        rw [htag] at h2
        exact hg (Option.some.inj h2).symm
      rw [hz, ih he hnd.2]
      omega

/-- Events satisfying a predicate that only accepts events of one group
never occur in the iterations of other groups. -/
theorem filter_staticMode_nil {env : Env} {cgs : List (String × List String)}
    {p : Event → Bool} {g : String}
    (hp : ∀ e, p e = true → evGroup e = some g)
    (hg : ∀ x ∈ cgs, x.1 ≠ g) :
    (staticMode env cgs).filter p = [] := by
  rw [List.filter_eq_nil_iff]
  intro e he hpe
  rcases mem_staticMode he with ⟨x, hx, hseg⟩
  have h2 := evGroup_staticGroupEvents hseg
  rw [hp e hpe] at h2
  exact hg x hx (Option.some.inj h2).symm

/-- Restricting the static loop's trace to one group's events yields
exactly that group's iteration trace. -/
theorem filter_staticMode {env : Env} {cgs : List (String × List String)}
    {g : String} {topics : List String} {p : Event → Bool}
    (hp : ∀ e, p e = true → evGroup e = some g)
    (hmem : (g, topics) ∈ cgs)
    (hnd : (cgs.map Prod.fst).Nodup) :
    (staticMode env cgs).filter p = (staticGroupEvents env g topics).filter p := by
  induction cgs with
  | nil => cases hmem
  | cons hd tl ih =>
    rw [List.map_cons, List.nodup_cons] at hnd
    have hsplit : staticMode env (hd :: tl)
        = staticGroupEvents env hd.1 hd.2 ++ staticMode env tl := by
      simp [staticMode]
    rw [hsplit, List.filter_append]
    rcases List.mem_cons.mp hmem with he | he
    · have h1 : hd.1 = g := by rw [← he]
      have h2 : hd.2 = topics := by rw [← he]
      have hz : (staticMode env tl).filter p = [] := by
        refine filter_staticMode_nil hp ?_
        intro x hx hxg
        apply hnd.1
        rw [h1, ← hxg]
        exact List.mem_map_of_mem Prod.fst hx
      rw [hz, h1, h2, List.append_nil]
    · have hgne : hd.1 ≠ g := by
        intro hh
        apply hnd.1
        rw [hh]
        exact List.mem_map_of_mem Prod.fst he
      have hz : (staticGroupEvents env hd.1 hd.2).filter p = [] := by
        rw [List.filter_eq_nil_iff]
        intro e he2 hpe
        have h2 := evGroup_staticGroupEvents he2
        rw [hp e hpe] at h2
        exact hgne (Option.some.inj h2).symm
      rw [hz, ih he hnd.2, List.nil_append]

/-- Within one non-skipped group's iteration, the reads restricted to
the offset and watermark read events are exactly the offset read
followed by the watermark read. -/
theorem filter_reads_staticGroupEvents (env : Env) (g : String) (topics : List String)
    (h0 : (env.fillTopicPartitions g topics).length ≠ 0) :
    (staticGroupEvents env g topics).filter
        (fun e => e == Event.offsetRead g || e == Event.watermarkRead g)
      = [Event.offsetRead g, Event.watermarkRead g] := by
  unfold staticGroupEvents
  rw [if_neg h0]
  rcases hsm : setMetrics env g
      (populateOffsetStructs (groupOffsets env g (env.fillTopicPartitions g topics))
        (groupWatermarks env (env.fillTopicPartitions g topics))) with ⟨res, ev⟩
  have hev : ev.filter (fun e => e == Event.offsetRead g || e == Event.watermarkRead g) = [] := by
    rw [List.filter_eq_nil_iff]
    intro e he hpe
    rcases mem_setMetrics_snd (by rw [hsm]; exact he) with ⟨r, _, hh | hh⟩ <;>
      rw [hh] at hpe <;> simp at hpe
  cases hoff : env.getConsumerOffsets g (env.fillTopicPartitions g topics) <;>
    cases hhwm : env.getHighWaterMarks (env.fillTopicPartitions g topics) <;>
      cases res <;>
        simp [List.filter_append, hev, hsm]

/-- An event distinct from both possible admin-close events is not in
the admin-close trace. -/
theorem not_mem_closeAdminEvents {env : Env} {e : Event}
    (h1 : e ≠ Event.closeAdmin) (h2 : ∀ s, e ≠ Event.logCloseAdminErr s) :
    e ∉ closeAdminEvents env := by
  intro h
  rcases mem_closeAdminEvents h with hh | ⟨s, hh⟩
  · exact h1 hh
  · exact h2 s hh

/-- An event distinct from both possible client-close events is not in
the client-close trace. -/
theorem not_mem_closeClientEvents {env : Env} {e : Event}
    (h1 : e ≠ Event.closeClient) (h2 : ∀ s, e ≠ Event.logCloseClientErr s) :
    e ∉ closeClientEvents env := by
  intro h
  rcases mem_closeClientEvents h with hh | ⟨s, hh⟩
  · exact h1 hh
  · exact h2 s hh

/-- Any event of one configured group's iteration occurs in the static
loop's trace. -/
theorem mem_staticMode_of_mem {env : Env} {cgs : List (String × List String)}
    {x : String × List String} {e : Event}
    (hx : x ∈ cgs) (he : e ∈ staticGroupEvents env x.1 x.2) :
    e ∈ staticMode env cgs := by
  unfold staticMode
  exact List.mem_flatten.mpr ⟨_, List.mem_map_of_mem _ hx, he⟩

/-- Lag records assembled from an empty offset snapshot carry no
consumer offset and no lag. -/
theorem populate_empty_offsets (hwm : WatermarkSnapshot) :
    ∀ r ∈ populateOffsetStructs [] hwm, r.ConsumerOffset = none ∧ r.ConsumerLag = none := by
  intro r hr
  rcases List.mem_map.mp hr with ⟨k, _, rfl⟩
  exact ⟨rfl, rfl⟩

/-- Lag records assembled from an empty watermark snapshot carry no
high-water mark and no lag. -/
theorem populate_empty_hwm (off : OffsetSnapshot) :
    ∀ r ∈ populateOffsetStructs off [], r.HighWaterMark = none ∧ r.ConsumerLag = none := by
  intro r hr
  rcases List.mem_map.mp hr with ⟨k, _, rfl⟩
  dsimp only
  refine ⟨rfl, ?_⟩
  cases lookupVal off k <;> rfl

/-- An emit event inside one group's static iteration names that group
and one of the records assembled from that group's snapshots. -/
theorem emit_mem_staticGroupEvents {env : Env} {g g' : String} {topics : List String}
    {r : partitionOffsets}
    (he : Event.emitRecord g' r ∈ staticGroupEvents env g topics) :
    g' = g ∧ (env.fillTopicPartitions g topics).length ≠ 0 ∧
      r ∈ populateOffsetStructs (groupOffsets env g (env.fillTopicPartitions g topics))
            (groupWatermarks env (env.fillTopicPartitions g topics)) := by
  unfold staticGroupEvents at he
  by_cases h0 : (env.fillTopicPartitions g topics).length = 0
  · rw [if_pos h0] at he
    simp at he
  · rw [if_neg h0] at he
    rcases List.mem_append.mp he with hm | hm
    · exfalso
      rcases List.mem_append.mp hm with hm | hm
      · cases hoff : env.getConsumerOffsets g (env.fillTopicPartitions g topics) <;>
          rw [hoff] at hm <;> simp at hm
      · cases hhwm : env.getHighWaterMarks (env.fillTopicPartitions g topics) <;>
          rw [hhwm] at hm <;> simp at hm
    · rcases hsm : setMetrics env g
          (populateOffsetStructs (groupOffsets env g (env.fillTopicPartitions g topics))
            (groupWatermarks env (env.fillTopicPartitions g topics))) with ⟨res, ev⟩
      rw [hsm] at hm
      have hmev : Event.emitRecord g' r ∈ ev := by
        cases res with
        | error e =>
          rcases List.mem_append.mp hm with hm2 | hm2
          · exact hm2
          · exact absurd (List.mem_singleton.mp hm2) (by simp)
        | ok u => exact hm
      rcases mem_setMetrics_snd (by rw [hsm]; exact hmev) with ⟨r2, hr2, hh | hh⟩
      · injection hh with h1 h2
        rw [h2]
        exact ⟨h1, h0, hr2⟩
      · exact absurd hh (by simp)

/-- The client-close trace always contains the Close call itself. -/
theorem closeClient_mem (env : Env) : Event.closeClient ∈ closeClientEvents env := by
  unfold closeClientEvents
  cases env.closeClientErr <;> simp

/-- The admin-close trace always contains the Close call itself. -/
theorem closeAdmin_mem (env : Env) : Event.closeAdmin ∈ closeAdminEvents env := by
  unfold closeAdminEvents
  cases env.closeAdminErr <;> simp

/-- Mapping each assembled record back to its key recovers the key list
the records were built from. -/
theorem map_keys_of_map (l : List (String × Int)) (f : String × Int → partitionOffsets)
    (hf : ∀ k, ((f k).Topic, (f k).Partition) = k) :
    (l.map f).map (fun r => (r.Topic, r.Partition)) = l := by
  induction l with
  | nil => rfl
  | cons k l ih => simp [hf, ih]

/-- The union of the two snapshot domains has no duplicate keys when
neither snapshot does. -/
theorem unionKeys_nodup {off hwm : List ((String × Int) × Option Int)}
    (hoff : (off.map Prod.fst).Nodup) (hhwm : (hwm.map Prod.fst).Nodup) :
    (unionKeys off hwm).Nodup := by
  unfold unionKeys
  refine List.Nodup.append hoff (hhwm.filter _) ?_
  intro k hk1 hk2
  have h2 := (List.mem_filter.mp hk2).2
  simp only [Bool.not_eq_true', decide_eq_false_iff_not] at h2
  exact h2 hk1

/-- In a duplicate-free list every element is counted once and every
non-element zero times. -/
theorem count_of_nodup {α : Type} [BEq α] [LawfulBEq α] {l : List α} (h : l.Nodup)
    (k : α) : l.count k = if k ∈ l then 1 else 0 := by
  induction l with
  | nil => simp
  | cons a l ih =>
    rw [List.nodup_cons] at h
    by_cases hak : a = k
    · subst hak
      rw [List.count_cons, ih h.2, if_neg h.1]
      simp
    · have hbeq : (a == k) = false := by
        rw [beq_eq_false_iff_ne]
        exact hak
      have hmem : (k ∈ a :: l) ↔ (k ∈ l) := by
        constructor
        · intro hh
          rcases List.mem_cons.mp hh with hh | hh
          · exact absurd hh.symm hak
          · exact hh
        · exact List.mem_cons_of_mem a
      rw [List.count_cons, ih h.2, hbeq]
      simp [hmem]

/-! ## Claim theorems -/

/-- C1: In regex-selection mode, for every discovered consumer-group
list, Collect spawns a collection task for exactly the first 200
matching groups (so at most 200); every further matching group is
appended to the skipped list, which is logged once as one aggregated
message when non-empty (and never logged when empty); every
non-matching group appears in the logged unmatched list; and the
spawned identifiers followed by the skipped identifiers are exactly the
matching identifiers, so no matched group is dropped from both. -/
theorem C1_regex_cap (a : Args) (env : Env) (m : String → Bool)
    (keys : List String) (gs : List GroupDescriptor)
    (hc : env.createClient = .ok ())
    (ha : env.createClusterAdmin = .ok ())
    (hr : a.consumerGroupRegex = some m)
    (hl : env.listConsumerGroups = .ok keys)
    (hd : env.describeConsumerGroups (List.replicate keys.length "" ++ keys) = .ok gs) :
    (Collect a env).2.filterMap spawnedOf =
        ((gs.filter (fun d => m d.groupId)).map GroupDescriptor.groupId).take 200
    ∧ ((Collect a env).2.filterMap spawnedOf).length ≤ 200
    ∧ (Collect a env).2.filterMap spawnedOf
        ++ ((gs.filter (fun d => m d.groupId)).map GroupDescriptor.groupId).drop 200
        = (gs.filter (fun d => m d.groupId)).map GroupDescriptor.groupId
    ∧ (((gs.filter (fun d => m d.groupId)).map GroupDescriptor.groupId).drop 200 ≠ [] →
        (Collect a env).2.count
          (Event.logSkipped
            (((gs.filter (fun d => m d.groupId)).map GroupDescriptor.groupId).drop 200)) = 1)
    ∧ (((gs.filter (fun d => m d.groupId)).map GroupDescriptor.groupId).drop 200 = [] →
        ∀ l, Event.logSkipped l ∉ (Collect a env).2)
    ∧ ((gs.filter (fun d => !(m d.groupId))).map GroupDescriptor.groupId ≠ [] →
        Event.logUnmatched ((gs.filter (fun d => !(m d.groupId))).map GroupDescriptor.groupId)
          ∈ (Collect a env).2)
    ∧ (∀ d ∈ gs, m d.groupId = false →
        d.groupId ∈ (gs.filter (fun d => !(m d.groupId))).map GroupDescriptor.groupId) := by
  rw [Collect_regex a env m hc ha hr, regexMode_ok m env keys gs hl hd]
  dsimp only
  have hspawn :
      ([Event.listGroups, Event.describeGroups (List.replicate keys.length "" ++ keys)]
          ++ ((gs.filter (fun d => m d.groupId)).take 200).map
               (fun d => Event.spawnTask d.groupId d.members)
          ++ (if (gs.filter (fun d => !(m d.groupId))).map GroupDescriptor.groupId = []
              then []
              else [Event.logUnmatched
                      ((gs.filter (fun d => !(m d.groupId))).map GroupDescriptor.groupId)])
          ++ (if ((gs.filter (fun d => m d.groupId)).drop 200).map GroupDescriptor.groupId = []
              then []
              else [Event.logSkipped
                      (((gs.filter (fun d => m d.groupId)).drop 200).map GroupDescriptor.groupId)])
          ++ [Event.waitJoin] ++ closeAdminEvents env ++ closeClientEvents env).filterMap
            spawnedOf
        = ((gs.filter (fun d => m d.groupId)).map GroupDescriptor.groupId).take 200 := by
    simp only [List.filterMap_append, filterMap_spawnedOf_spawnMap,
      filterMap_spawnedOf_closeAdmin, filterMap_spawnedOf_closeClient,
      apply_ite (List.filterMap spawnedOf)]
    simp [spawnedOf, List.map_take]
  refine ⟨hspawn, ?_, ?_, ?_, ?_, ?_, ?_⟩
  · rw [hspawn]
    simp [List.length_take]
  · rw [hspawn]
    exact List.take_append_drop 200 _
  · intro hne
    rw [← List.map_drop] at hne
    have hgt : ¬ (gs.filter (fun d => m d.groupId)).length ≤ 200 := by
      intro hle
      exact hne (by rw [List.drop_eq_nil_of_le hle]; rfl)
    by_cases hu : (gs.filter (fun d => !(m d.groupId))).map GroupDescriptor.groupId = [] <;>
      cases hca : env.closeAdminErr <;> cases hcc : env.closeClientErr <;>
        simp [List.count_append, hu, hgt, closeAdminEvents, closeClientEvents, hca, hcc,
          count_logSkipped_spawnMap]
  · intro hnil l
    rw [← List.map_drop] at hnil
    have hle : (gs.filter (fun d => m d.groupId)).length ≤ 200 := by
      have hd0 : (gs.filter (fun d => m d.groupId)).drop 200 = [] := by
        cases h : (gs.filter (fun d => m d.groupId)).drop 200 with
        | nil => rfl
        | cons x xs => rw [h] at hnil; simp at hnil
      have h2 := congrArg List.length hd0
      simp [List.length_drop] at h2
      omega
    by_cases hu : (gs.filter (fun d => !(m d.groupId))).map GroupDescriptor.groupId = [] <;>
      cases hca : env.closeAdminErr <;> cases hcc : env.closeClientErr <;>
        simp [hu, hle, closeAdminEvents, closeClientEvents, hca, hcc,
          logSkipped_not_mem_spawnMap]
  · intro hne
    rw [if_neg hne]
    simp
  · intro d hmem hm
    exact List.mem_map_of_mem GroupDescriptor.groupId (List.mem_filter.mpr ⟨hmem, by simp [hm]⟩)

/-- C2: For every consumer group collected in static (consumer_groups)
mode, the committed-offset read (getConsumerOffsets) is invoked before
the high-water-mark read (getHighWaterMarks) for that group: the trace
of Collect restricted to that group's two read events is exactly the
offset read followed by the watermark read, so the watermark read never
precedes the offset read within a single group's collection. -/
theorem C2_offset_before_watermark (a : Args) (env : Env) (g : String)
    (topics : List String)
    (hc : env.createClient = .ok ())
    (ha : env.createClusterAdmin = .ok ())
    (hr : a.consumerGroupRegex = none)
    (hnz : a.consumerGroups.length ≠ 0)
    (hnd : (a.consumerGroups.map Prod.fst).Nodup)
    (hmem : (g, topics) ∈ a.consumerGroups)
    (h0 : (env.fillTopicPartitions g topics).length ≠ 0) :
    (Collect a env).2.filter
        (fun e => e == Event.offsetRead g || e == Event.watermarkRead g)
      = [Event.offsetRead g, Event.watermarkRead g] := by
  rw [Collect_static a env hc ha hr hnz]
  dsimp only
  have hp : ∀ e, (e == Event.offsetRead g || e == Event.watermarkRead g) = true →
      evGroup e = some g := by
    intro e hpe
    simp at hpe
    rcases hpe with h | h <;> rw [h] <;> rfl
  have hA : (closeAdminEvents env).filter
      (fun e => e == Event.offsetRead g || e == Event.watermarkRead g) = [] := by
    rw [List.filter_eq_nil_iff]
    intro e he hpe
    simp at hpe
    rcases mem_closeAdminEvents he with hh | ⟨s, hh⟩ <;>
      rcases hpe with h | h <;> rw [hh] at h <;> simp at h
  have hC : (closeClientEvents env).filter
      (fun e => e == Event.offsetRead g || e == Event.watermarkRead g) = [] := by
    rw [List.filter_eq_nil_iff]
    intro e he hpe
    simp at hpe
    rcases mem_closeClientEvents he with hh | ⟨s, hh⟩ <;>
      rcases hpe with h | h <;> rw [hh] at h <;> simp at h
  simp only [List.filter_append, List.filter_cons]
  rw [filter_staticMode hp hmem hnd, filter_reads_staticGroupEvents env g topics h0]
  simp [hA, hC]

/-- C4: When neither consumer_group_regex nor a non-empty
consumer_groups mapping is configured, Collect returns the
configuration error and performs no collection: its trace consists only
of the deferred close events — no group list is fetched, no task is
spawned, no read is issued, and no metric record is emitted. -/
theorem C4_config_error (a : Args) (env : Env)
    (hc : env.createClient = .ok ())
    (ha : env.createClusterAdmin = .ok ())
    (hr : a.consumerGroupRegex = none)
    (hz : a.consumerGroups = []) :
    (Collect a env).1 =
        .error "if consumer_offset is set, either consumer_group_regex or consumer_groups (deprecated) must also be set"
    ∧ (Collect a env).2 = closeAdminEvents env ++ closeClientEvents env
    ∧ Event.listGroups ∉ (Collect a env).2
    ∧ (∀ g mem, Event.spawnTask g mem ∉ (Collect a env).2)
    ∧ (∀ g, Event.offsetRead g ∉ (Collect a env).2)
    ∧ (∀ g r, Event.emitRecord g r ∉ (Collect a env).2) := by
  have hbody : Collect a env =
      (.error "if consumer_offset is set, either consumer_group_regex or consumer_groups (deprecated) must also be set",
        closeAdminEvents env ++ closeClientEvents env) := by
    rw [Collect, hc, ha, collectBody, hr, hz]
    simp
  rw [hbody]
  refine ⟨rfl, rfl, ?_, ?_, ?_, ?_⟩
  · intro h
    rcases List.mem_append.mp h with h | h
    · exact not_mem_closeAdminEvents (by simp) (by simp) h
    · exact not_mem_closeClientEvents (by simp) (by simp) h
  · intro g mem h
    rcases List.mem_append.mp h with h | h
    · exact not_mem_closeAdminEvents (by simp) (by simp) h
    · exact not_mem_closeClientEvents (by simp) (by simp) h
  · intro g h
    rcases List.mem_append.mp h with h | h
    · exact not_mem_closeAdminEvents (by simp) (by simp) h
    · exact not_mem_closeClientEvents (by simp) (by simp) h
  · intro g r h
    rcases List.mem_append.mp h with h | h
    · exact not_mem_closeAdminEvents (by simp) (by simp) h
    · exact not_mem_closeClientEvents (by simp) (by simp) h

/-- C5: In regex-selection mode, a failure of ListConsumerGroups makes
Collect return the wrapped discovery error, and a failure of
DescribeConsumerGroups makes it return the wrapped description error;
in both cases no per-group collection task is spawned and no metric
record is emitted. -/
theorem C5_discovery_failure (a : Args) (env : Env) (m : String → Bool)
    (hc : env.createClient = .ok ())
    (ha : env.createClusterAdmin = .ok ())
    (hr : a.consumerGroupRegex = some m) :
    (∀ e, env.listConsumerGroups = .error e →
      (Collect a env).1 = .error ("failed to get list of consumer groups: " ++ e)
      ∧ (∀ g mem, Event.spawnTask g mem ∉ (Collect a env).2)
      ∧ (∀ g r, Event.emitRecord g r ∉ (Collect a env).2))
    ∧ (∀ keys e, env.listConsumerGroups = .ok keys →
        env.describeConsumerGroups (List.replicate keys.length "" ++ keys) = .error e →
        (Collect a env).1 = .error ("failed to get consumer group descriptions: " ++ e)
        ∧ (∀ g mem, Event.spawnTask g mem ∉ (Collect a env).2)
        ∧ (∀ g r, Event.emitRecord g r ∉ (Collect a env).2)) := by
  rw [Collect_regex a env m hc ha hr]
  constructor
  · intro e hl
    rw [regexMode, hl]
    refine ⟨rfl, ?_, ?_⟩
    · intro g mem h
      rcases List.mem_append.mp h with h | h
      · rcases List.mem_append.mp h with h | h
        · simp at h
        · exact not_mem_closeAdminEvents (by simp) (by simp) h
      · exact not_mem_closeClientEvents (by simp) (by simp) h
    · intro g r h
      rcases List.mem_append.mp h with h | h
      · rcases List.mem_append.mp h with h | h
        · simp at h
        · exact not_mem_closeAdminEvents (by simp) (by simp) h
      · exact not_mem_closeClientEvents (by simp) (by simp) h
  · intro keys e hl hd
    rw [regexMode, hl]
    simp only [hd]
    refine ⟨trivial, ?_, ?_⟩
    · intro g mem h
      rcases List.mem_append.mp h with h | h
      · rcases List.mem_append.mp h with h | h
        · simp at h
        · exact not_mem_closeAdminEvents (by simp) (by simp) h
      · exact not_mem_closeClientEvents (by simp) (by simp) h
    · intro g r h
      rcases List.mem_append.mp h with h | h
      · rcases List.mem_append.mp h with h | h
        · simp at h
        · exact not_mem_closeAdminEvents (by simp) (by simp) h
      · exact not_mem_closeClientEvents (by simp) (by simp) h

/-- C6: In static mode, a failed offset or watermark read for a group
is logged with the group identifier, the affected metrics are omitted
(records emitted for a group whose offset read failed carry no consumer
offset and no lag, and records emitted for a group whose watermark read
failed carry no high-water mark and no lag), the loop still issues the
offset read of every other non-skipped configured group, and Collect
returns nil whatever the per-group reads did. -/
theorem C6_static_failures_isolated (a : Args) (env : Env)
    (hc : env.createClient = .ok ())
    (ha : env.createClusterAdmin = .ok ())
    (hr : a.consumerGroupRegex = none)
    (hnz : a.consumerGroups.length ≠ 0)
    (hnd : (a.consumerGroups.map Prod.fst).Nodup) :
    (Collect a env).1 = .ok ()
    ∧ (∀ g topics e, (g, topics) ∈ a.consumerGroups →
        (env.fillTopicPartitions g topics).length ≠ 0 →
        env.getConsumerOffsets g (env.fillTopicPartitions g topics) = .error e →
        Event.logOffsetErr g e ∈ (Collect a env).2)
    ∧ (∀ g topics e, (g, topics) ∈ a.consumerGroups →
        (env.fillTopicPartitions g topics).length ≠ 0 →
        env.getHighWaterMarks (env.fillTopicPartitions g topics) = .error e →
        Event.logWatermarkErr g e ∈ (Collect a env).2)
    ∧ (∀ g topics e r, (g, topics) ∈ a.consumerGroups →
        env.getConsumerOffsets g (env.fillTopicPartitions g topics) = .error e →
        Event.emitRecord g r ∈ (Collect a env).2 →
        r.ConsumerOffset = none ∧ r.ConsumerLag = none)
    ∧ (∀ g topics e r, (g, topics) ∈ a.consumerGroups →
        env.getHighWaterMarks (env.fillTopicPartitions g topics) = .error e →
        Event.emitRecord g r ∈ (Collect a env).2 →
        r.HighWaterMark = none ∧ r.ConsumerLag = none)
    ∧ (∀ g topics, (g, topics) ∈ a.consumerGroups →
        (env.fillTopicPartitions g topics).length ≠ 0 →
        Event.offsetRead g ∈ (Collect a env).2) := by
  rw [Collect_static a env hc ha hr hnz]
  dsimp only
  refine ⟨rfl, ?_, ?_, ?_, ?_, ?_⟩
  · intro g topics e hmem h0 hoff
    apply List.mem_append_left
    apply List.mem_cons_of_mem
    apply List.mem_append_left
    apply mem_staticMode_of_mem hmem
    unfold staticGroupEvents
    rw [if_neg h0, hoff]
    simp
  · intro g topics e hmem h0 hhwm
    apply List.mem_append_left
    apply List.mem_cons_of_mem
    apply List.mem_append_left
    apply mem_staticMode_of_mem hmem
    unfold staticGroupEvents
    rw [if_neg h0, hhwm]
    simp
  · intro g topics e r hmem hoff hemit
    have hsm : Event.emitRecord g r ∈ staticMode env a.consumerGroups := by
      rcases List.mem_append.mp hemit with h | h
      · rcases List.mem_append.mp h with h | h
        · rcases List.mem_cons.mp h with h | h
          · exact absurd h (by simp)
          · exact h
        · exact absurd h (not_mem_closeAdminEvents (by simp) (by simp))
      · exact absurd h (not_mem_closeClientEvents (by simp) (by simp))
    rcases mem_staticMode hsm with ⟨x, hx, hseg⟩
    rcases emit_mem_staticGroupEvents hseg with ⟨hg, _, hrec⟩
    have hx2 : (g, x.2) ∈ a.consumerGroups := by
      rw [hg]
      exact hx
    have ht : x.2 = topics := key_unique hnd hx2 hmem
    rw [← hg, ht] at hrec
    have hempty : groupOffsets env g (env.fillTopicPartitions g topics) = [] := by
      unfold groupOffsets
      rw [hoff]
    rw [hempty] at hrec
    exact populate_empty_offsets _ r hrec
  · intro g topics e r hmem hhwm hemit
    have hsm : Event.emitRecord g r ∈ staticMode env a.consumerGroups := by
      rcases List.mem_append.mp hemit with h | h
      · rcases List.mem_append.mp h with h | h
        · rcases List.mem_cons.mp h with h | h
          · exact absurd h (by simp)
          · exact h
        · exact absurd h (not_mem_closeAdminEvents (by simp) (by simp))
      · exact absurd h (not_mem_closeClientEvents (by simp) (by simp))
    rcases mem_staticMode hsm with ⟨x, hx, hseg⟩
    rcases emit_mem_staticGroupEvents hseg with ⟨hg, _, hrec⟩
    have hx2 : (g, x.2) ∈ a.consumerGroups := by
      rw [hg]
      exact hx
    have ht : x.2 = topics := key_unique hnd hx2 hmem
    rw [← hg, ht] at hrec
    have hempty : groupWatermarks env (env.fillTopicPartitions g topics) = [] := by
      unfold groupWatermarks
      rw [hhwm]
    rw [hempty] at hrec
    exact populate_empty_hwm _ r hrec
  · intro g topics hmem h0
    apply List.mem_append_left
    apply List.mem_cons_of_mem
    apply List.mem_append_left
    apply mem_staticMode_of_mem hmem
    unfold staticGroupEvents
    rw [if_neg h0]
    simp

/-- C7: In static mode, a configured group whose topic list resolves to
an empty TopicPartitions contributes exactly one skip-log entry and
zero output records (no read is even issued for it), while Collect
still returns nil and still issues the offset read of every other
non-skipped configured group. -/
theorem C7_zero_partition_group (a : Args) (env : Env) (g : String)
    (topics : List String)
    (hc : env.createClient = .ok ())
    (ha : env.createClusterAdmin = .ok ())
    (hr : a.consumerGroupRegex = none)
    (hnz : a.consumerGroups.length ≠ 0)
    (hnd : (a.consumerGroups.map Prod.fst).Nodup)
    (hmem : (g, topics) ∈ a.consumerGroups)
    (h0 : env.fillTopicPartitions g topics = []) :
    (Collect a env).1 = .ok ()
    ∧ (Collect a env).2.count (Event.logNoTopics g) = 1
    ∧ (∀ r, Event.emitRecord g r ∉ (Collect a env).2)
    ∧ Event.offsetRead g ∉ (Collect a env).2
    ∧ (∀ g2 topics2, (g2, topics2) ∈ a.consumerGroups →
        (env.fillTopicPartitions g2 topics2).length ≠ 0 →
        Event.offsetRead g2 ∈ (Collect a env).2) := by
  have hlen : (env.fillTopicPartitions g topics).length = 0 := by
    rw [h0]
    rfl
  have hseg : staticGroupEvents env g topics = [Event.logNoTopics g] := by
    unfold staticGroupEvents
    rw [if_pos hlen]
  rw [Collect_static a env hc ha hr hnz]
  dsimp only
  refine ⟨rfl, ?_, ?_, ?_, ?_⟩
  · rw [List.count_append, List.count_append, List.count_cons]
    have c1 : (staticMode env a.consumerGroups).count (Event.logNoTopics g) = 1 := by
      rw [count_staticMode (e := Event.logNoTopics g) rfl hmem hnd, hseg]
      simp
    have c2 : (closeAdminEvents env).count (Event.logNoTopics g) = 0 :=
      List.count_eq_zero.mpr (not_mem_closeAdminEvents (by simp) (by simp))
    have c3 : (closeClientEvents env).count (Event.logNoTopics g) = 0 :=
      List.count_eq_zero.mpr (not_mem_closeClientEvents (by simp) (by simp))
    rw [c1, c2, c3]
    simp
  · intro r hemit
    have hsm : Event.emitRecord g r ∈ staticMode env a.consumerGroups := by
      rcases List.mem_append.mp hemit with h | h
      · rcases List.mem_append.mp h with h | h
        · rcases List.mem_cons.mp h with h | h
          · exact absurd h (by simp)
          · exact h
        · exact absurd h (not_mem_closeAdminEvents (by simp) (by simp))
      · exact absurd h (not_mem_closeClientEvents (by simp) (by simp))
    rcases mem_staticMode hsm with ⟨x, hx, hseg2⟩
    rcases emit_mem_staticGroupEvents hseg2 with ⟨hg, hne, _⟩
    have hx2 : (g, x.2) ∈ a.consumerGroups := by
      rw [hg]
      exact hx
    have ht : x.2 = topics := key_unique hnd hx2 hmem
    rw [← hg, ht] at hne
    exact hne hlen
  · intro hread
    have hsm : Event.offsetRead g ∈ staticMode env a.consumerGroups := by
      rcases List.mem_append.mp hread with h | h
      · rcases List.mem_append.mp h with h | h
        · rcases List.mem_cons.mp h with h | h
          · exact absurd h (by simp)
          · exact h
        · exact absurd h (not_mem_closeAdminEvents (by simp) (by simp))
      · exact absurd h (not_mem_closeClientEvents (by simp) (by simp))
    rcases mem_staticMode hsm with ⟨x, hx, hseg2⟩
    have htag := evGroup_staticGroupEvents hseg2
    have hg : x.1 = g := by
      have : evGroup (Event.offsetRead g) = some g := rfl
      rw [this] at htag
      exact (Option.some.inj htag).symm
    have hx2 : (g, x.2) ∈ a.consumerGroups := by
      rw [← hg]
      exact hx
    have ht : x.2 = topics := key_unique hnd hx2 hmem
    rw [hg, ht, hseg] at hseg2
    exact absurd (List.mem_singleton.mp hseg2) (by simp)
  · intro g2 topics2 hmem2 h02
    apply List.mem_append_left
    apply List.mem_cons_of_mem
    apply List.mem_append_left
    apply mem_staticMode_of_mem hmem2
    unfold staticGroupEvents
    rw [if_neg h02]
    simp

/-- C8: After the coordination client is successfully created, every
exit path of Collect ends with the deferred Client.Close events; after
the cluster admin is also created, every exit path ends with the
deferred AdminClient.Close events followed by the Client.Close events;
and on the successful regex path the join of the spawned tasks
(wg.Wait) happens before both closes, with no task spawned after it. -/
theorem C8_close_on_every_path (a : Args) (env : Env)
    (hc : env.createClient = .ok ()) :
    (∃ pre, (Collect a env).2 = pre ++ closeClientEvents env)
    ∧ Event.closeClient ∈ (Collect a env).2
    ∧ (env.createClusterAdmin = .ok () →
        (∃ pre, (Collect a env).2 = pre ++ closeAdminEvents env ++ closeClientEvents env)
        ∧ Event.closeAdmin ∈ (Collect a env).2)
    ∧ (∀ m keys gs, a.consumerGroupRegex = some m →
        env.listConsumerGroups = .ok keys →
        env.describeConsumerGroups (List.replicate keys.length "" ++ keys) = .ok gs →
        env.createClusterAdmin = .ok () →
        (∃ pre, (Collect a env).2
            = pre ++ [Event.waitJoin] ++ closeAdminEvents env ++ closeClientEvents env)
        ∧ (∀ g mem, Event.spawnTask g mem ∉
            [Event.waitJoin] ++ closeAdminEvents env ++ closeClientEvents env)) := by
  cases hA : env.createClusterAdmin with
  | error e =>
    have hco : Collect a env = (.error e, closeClientEvents env) := by
      rw [Collect, hc, hA]
    rw [hco]
    refine ⟨⟨[], rfl⟩, closeClient_mem env, ?_, ?_⟩
    · intro h
      exact absurd h (by simp)
    · intro m keys gs hr hl hd h
      exact absurd h (by simp)
  | ok u =>
    cases u
    have hco : Collect a env =
        ((collectBody a env none).1,
          (collectBody a env none).2 ++ closeAdminEvents env ++ closeClientEvents env) := by
      rw [Collect, hc, hA]
    rw [hco]
    refine ⟨⟨(collectBody a env none).2 ++ closeAdminEvents env, by rw [List.append_assoc]⟩,
      List.mem_append_right _ (closeClient_mem env), ?_, ?_⟩
    · intro _
      exact ⟨⟨(collectBody a env none).2, rfl⟩,
        List.mem_append_left _ (List.mem_append_right _ (closeAdmin_mem env))⟩
    · intro m keys gs hr hl hd _
      have hb : collectBody a env none = regexMode m env := by
        rw [collectBody, hr]
      constructor
      · refine ⟨[Event.listGroups,
            Event.describeGroups (List.replicate keys.length "" ++ keys)]
              ++ ((gs.filter (fun d => m d.groupId)).take 200).map
                   (fun d => Event.spawnTask d.groupId d.members)
              ++ (if (gs.filter (fun d => !(m d.groupId))).map GroupDescriptor.groupId = []
                  then []
                  else [Event.logUnmatched
                          ((gs.filter (fun d => !(m d.groupId))).map GroupDescriptor.groupId)])
              ++ (if ((gs.filter (fun d => m d.groupId)).drop 200).map GroupDescriptor.groupId
                      = []
                  then []
                  else [Event.logSkipped
                          (((gs.filter (fun d => m d.groupId)).drop 200).map
                            GroupDescriptor.groupId)]), ?_⟩
        rw [hb, regexMode_ok m env keys gs hl hd]
      · intro g mem h
        rcases List.mem_append.mp h with h | h
        · rcases List.mem_append.mp h with h | h
          · simp at h
          · exact not_mem_closeAdminEvents (by simp) (by simp) h
        · exact not_mem_closeClientEvents (by simp) (by simp) h

/-- C9: In regex-selection mode, for every non-empty group map whose
key sequence is keys (of length n), the identifier list Collect passes
to DescribeConsumerGroups is replicate n of the empty string followed
by keys: it has length 2n, its first n elements are empty strings, and
only its last n elements are the actual group identifiers. -/
theorem C9_describe_id_list (a : Args) (env : Env) (m : String → Bool)
    (keys : List String)
    (hc : env.createClient = .ok ())
    (ha : env.createClusterAdmin = .ok ())
    (hr : a.consumerGroupRegex = some m)
    (hl : env.listConsumerGroups = .ok keys)
    (hne : keys ≠ []) :
    Event.describeGroups (List.replicate keys.length "" ++ keys) ∈ (Collect a env).2
    ∧ (∀ l, Event.describeGroups l ∈ (Collect a env).2 →
        l = List.replicate keys.length "" ++ keys)
    ∧ (List.replicate keys.length "" ++ keys).length = 2 * keys.length
    ∧ (List.replicate keys.length "" ++ keys).take keys.length
        = List.replicate keys.length ""
    ∧ (List.replicate keys.length "" ++ keys).drop keys.length = keys := by
  rw [Collect_regex a env m hc ha hr]
  dsimp only
  refine ⟨?_, ?_, ?_, ?_, ?_⟩
  · apply List.mem_append_left
    apply List.mem_append_left
    cases hd : env.describeConsumerGroups (List.replicate keys.length "" ++ keys) with
    | error e =>
      rw [regexMode, hl]
      simp [hd]
    | ok gs =>
      rw [regexMode_ok m env keys gs hl hd]
      simp
  · intro l h
    rcases List.mem_append.mp h with h | h
    swap
    · exact absurd h (not_mem_closeClientEvents (by simp) (by simp))
    rcases List.mem_append.mp h with h | h
    swap
    · exact absurd h (not_mem_closeAdminEvents (by simp) (by simp))
    cases hd : env.describeConsumerGroups (List.replicate keys.length "" ++ keys) with
    | error e =>
      rw [regexMode, hl] at h
      simp only [hd] at h
      simp at h
      exact h
    | ok gs =>
      rw [regexMode_ok m env keys gs hl hd] at h
      dsimp only at h
      rcases List.mem_append.mp h with h | h
      swap
      · simp at h
      rcases List.mem_append.mp h with h | h
      swap
      · split at h <;> simp at h
      rcases List.mem_append.mp h with h | h
      swap
      · split at h <;> simp at h
      rcases List.mem_append.mp h with h | h
      · simp at h
        exact h
      · rcases List.mem_map.mp h with ⟨d, _, hd2⟩
        cases hd2
  · have h2 : (List.replicate keys.length "" ++ keys).length
        = keys.length + keys.length := by
      simp
    rw [h2]
    omega
  · have h2 : (List.replicate keys.length "").length = keys.length := by simp
    nth_rewrite 1 [← h2]
    rw [List.take_left]
  · have h2 : (List.replicate keys.length "").length = keys.length := by simp
    nth_rewrite 1 [← h2]
    rw [List.drop_left]

/-- C10: The error return for a failed cluster-admin creation inside
the regex-mode branch is dead: execution that reaches the regex branch
does so with a nil err (Collect hands collectBody errVar = none after
the earlier check returned on any non-nil err), so Collect proceeds
straight into regexMode; the branch would only fire for a non-nil
errVar, as the second conjunct shows. -/
theorem C10_dead_error_branch (a : Args) (env : Env) (m : String → Bool) (e : String)
    (hc : env.createClient = .ok ())
    (ha : env.createClusterAdmin = .ok ())
    (hr : a.consumerGroupRegex = some m) :
    Collect a env =
      ((regexMode m env).1,
        (regexMode m env).2 ++ closeAdminEvents env ++ closeClientEvents env)
    ∧ (collectBody a env (some e)).1 =
        .error ("failed to create cluster admin from client: " ++ e) := by
  refine ⟨Collect_regex a env m hc ha hr, ?_⟩
  rw [collectBody, hr]

/-- C3: For snapshots with duplicate-free key domains, the assembled
output has exactly one record per (topic, partition) key in the union
of the two domains; each record's consumer offset and high-water mark
are the snapshot lookups; the lag equals high-water-mark minus
consumer-offset whenever both are present (with no clamping, the
difference is taken as-is even when negative) and is absent whenever
either is absent. -/
theorem C3_lag_assembler (off : OffsetSnapshot) (hwm : WatermarkSnapshot)
    (hoff : (off.map Prod.fst).Nodup) (hhwm : (hwm.map Prod.fst).Nodup) :
    (populateOffsetStructs off hwm).map (fun r => (r.Topic, r.Partition))
      = unionKeys off hwm
    ∧ (unionKeys off hwm).Nodup
    ∧ (∀ k, k ∈ unionKeys off hwm ↔ k ∈ off.map Prod.fst ∨ k ∈ hwm.map Prod.fst)
    ∧ (∀ k, ((populateOffsetStructs off hwm).map (fun r => (r.Topic, r.Partition))).count k
        = if k ∈ unionKeys off hwm then 1 else 0)
    ∧ (∀ r ∈ populateOffsetStructs off hwm,
        r.ConsumerOffset = lookupVal off (r.Topic, r.Partition)
        ∧ r.HighWaterMark = lookupVal hwm (r.Topic, r.Partition))
    ∧ (∀ r ∈ populateOffsetStructs off hwm, ∀ o h,
        r.ConsumerOffset = some o → r.HighWaterMark = some h →
        r.ConsumerLag = some (h - o))
    ∧ (∀ r ∈ populateOffsetStructs off hwm,
        (r.ConsumerOffset = none ∨ r.HighWaterMark = none) → r.ConsumerLag = none) := by
  have hkeys : (populateOffsetStructs off hwm).map (fun r => (r.Topic, r.Partition))
      = unionKeys off hwm := by
    unfold populateOffsetStructs
    exact map_keys_of_map _ _ (fun k => rfl)
  have hnd := unionKeys_nodup hoff hhwm
  refine ⟨hkeys, hnd, ?_, ?_, ?_, ?_, ?_⟩
  · intro k
    unfold unionKeys
    simp only [List.mem_append, List.mem_filter, Bool.not_eq_true',
      decide_eq_false_iff_not]
    constructor
    · intro h
      rcases h with h | ⟨h, _⟩
      · exact Or.inl h
      · exact Or.inr h
    · intro h
      rcases h with h | h
      · exact Or.inl h
      · by_cases h2 : k ∈ off.map Prod.fst
        · exact Or.inl h2
        · exact Or.inr ⟨h, h2⟩
  · intro k
    rw [hkeys, count_of_nodup hnd k]
  · intro r hr
    rcases List.mem_map.mp hr with ⟨k, _, rfl⟩
    exact ⟨rfl, rfl⟩
  · intro r hr o h ho hh
    rcases List.mem_map.mp hr with ⟨k, _, rfl⟩
    dsimp only at ho hh ⊢
    rw [ho, hh]
  · intro r hr hor
    rcases List.mem_map.mp hr with ⟨k, _, rfl⟩
    dsimp only at hor ⊢
    rcases hor with h | h
    · rw [h]
    · cases lookupVal off k <;> rw [h]

/-! ## Concrete sample data for the witnesses -/

/-- A concrete matching predicate standing for a compiled regex. -/
def sampleRegex : String → Bool := fun s => s.startsWith "app"

/-- Concrete group keys as listed by ListConsumerGroups. -/
def sampleKeys : List String := ["app-1", "app-2", "other"]

/-- Concrete described consumer groups. -/
def sampleGroups : List GroupDescriptor :=
  [⟨"app-1", ["client-1"]⟩, ⟨"app-2", []⟩, ⟨"other", []⟩]

/-- A fully healthy environment. -/
def sampleEnv : Env :=
  { createClient := .ok ()
    closeClientErr := none
    createClusterAdmin := .ok ()
    closeAdminErr := none
    listConsumerGroups := .ok sampleKeys
    describeConsumerGroups := fun _ => .ok sampleGroups
    fillTopicPartitions := fun _ _ => [("t", [0, 1])]
    getConsumerOffsets := fun _ _ => .ok [(("t", 0), some 100), (("t", 1), none)]
    getHighWaterMarks := fun _ => .ok [(("t", 0), some 150), (("t", 1), some 200)]
    entity := fun _ => .ok ()
    marshalOk := fun _ _ => true }

/-- Regex-mode configuration. -/
def sampleRegexArgs : Args := ⟨some sampleRegex, [], "cluster"⟩

/-- Static-mode configuration. -/
def sampleStaticArgs : Args :=
  ⟨none, [("group-a", ["t"]), ("group-b", ["u"])], "cluster"⟩

/-- Configuration with neither selection mode set. -/
def sampleEmptyArgs : Args := ⟨none, [], "cluster"⟩

/-- The healthy environment with a failing group-list call. -/
def envListErr : Env := { sampleEnv with listConsumerGroups := .error "boom" }

/-- The healthy environment with a failing offset read for group-a. -/
def envOffErr : Env :=
  { sampleEnv with
      getConsumerOffsets := fun g _ =>
        if g = "group-a" then .error "conn reset"
        else .ok [(("t", 0), some 100)] }

/-- The healthy environment where group-a resolves to no partitions. -/
def envNoTopics : Env :=
  { sampleEnv with
      fillTopicPartitions := fun g _ =>
        if g = "group-a" then [] else [("t", [0, 1])] }

/-- Sample offset snapshot for the Lag Assembler. -/
def sampleOff : OffsetSnapshot :=
  [(("T", 0), some 100), (("T", 1), none), (("T", 2), some 300)]

/-- Sample watermark snapshot for the Lag Assembler; key ("T", 2) makes
the lag negative, key ("T", 3) is watermark-only. -/
def sampleHwm : WatermarkSnapshot :=
  [(("T", 0), some 150), (("T", 1), some 200), (("T", 2), some 250),
   (("T", 3), some 50)]

/-! ## Witnesses -/

theorem C1_regex_cap_witness :
    sampleEnv.createClient = .ok ()
    ∧ sampleEnv.createClusterAdmin = .ok ()
    ∧ sampleRegexArgs.consumerGroupRegex = some sampleRegex
    ∧ sampleEnv.listConsumerGroups = .ok sampleKeys
    ∧ sampleEnv.describeConsumerGroups (List.replicate sampleKeys.length "" ++ sampleKeys)
        = .ok sampleGroups
    ∧ (Collect sampleRegexArgs sampleEnv).2.filterMap spawnedOf
        = ((sampleGroups.filter (fun d => sampleRegex d.groupId)).map
            GroupDescriptor.groupId).take 200 :=
  ⟨rfl, rfl, rfl, rfl, rfl,
    (C1_regex_cap sampleRegexArgs sampleEnv sampleRegex sampleKeys sampleGroups
      rfl rfl rfl rfl rfl).1⟩

theorem C2_offset_before_watermark_witness :
    sampleEnv.createClient = .ok ()
    ∧ sampleEnv.createClusterAdmin = .ok ()
    ∧ sampleStaticArgs.consumerGroupRegex = none
    ∧ sampleStaticArgs.consumerGroups.length ≠ 0
    ∧ (sampleStaticArgs.consumerGroups.map Prod.fst).Nodup
    ∧ ("group-a", ["t"]) ∈ sampleStaticArgs.consumerGroups
    ∧ (sampleEnv.fillTopicPartitions "group-a" ["t"]).length ≠ 0
    ∧ (Collect sampleStaticArgs sampleEnv).2.filter
        (fun e => e == Event.offsetRead "group-a" || e == Event.watermarkRead "group-a")
      = [Event.offsetRead "group-a", Event.watermarkRead "group-a"] :=
  ⟨rfl, rfl, rfl, by decide, by decide, by decide, by decide,
    C2_offset_before_watermark sampleStaticArgs sampleEnv "group-a" ["t"]
      rfl rfl rfl (by decide) (by decide) (by decide) (by decide)⟩

theorem C3_lag_assembler_witness :
    (sampleOff.map Prod.fst).Nodup
    ∧ (sampleHwm.map Prod.fst).Nodup
    ∧ (populateOffsetStructs sampleOff sampleHwm).map (fun r => (r.Topic, r.Partition))
        = unionKeys sampleOff sampleHwm :=
  ⟨by decide, by decide,
    (C3_lag_assembler sampleOff sampleHwm (by decide) (by decide)).1⟩

theorem C4_config_error_witness :
    sampleEnv.createClient = .ok ()
    ∧ sampleEnv.createClusterAdmin = .ok ()
    ∧ sampleEmptyArgs.consumerGroupRegex = none
    ∧ sampleEmptyArgs.consumerGroups = []
    ∧ (Collect sampleEmptyArgs sampleEnv).1 =
        .error "if consumer_offset is set, either consumer_group_regex or consumer_groups (deprecated) must also be set" :=
  ⟨rfl, rfl, rfl, rfl,
    (C4_config_error sampleEmptyArgs sampleEnv rfl rfl rfl rfl).1⟩

theorem C5_discovery_failure_witness :
    envListErr.createClient = .ok ()
    ∧ envListErr.createClusterAdmin = .ok ()
    ∧ sampleRegexArgs.consumerGroupRegex = some sampleRegex
    ∧ envListErr.listConsumerGroups = .error "boom"
    ∧ (Collect sampleRegexArgs envListErr).1 =
        .error ("failed to get list of consumer groups: " ++ "boom") :=
  ⟨rfl, rfl, rfl, rfl,
    ((C5_discovery_failure sampleRegexArgs envListErr sampleRegex rfl rfl rfl).1
      "boom" rfl).1⟩

theorem C6_static_failures_isolated_witness :
    envOffErr.createClient = .ok ()
    ∧ envOffErr.createClusterAdmin = .ok ()
    ∧ sampleStaticArgs.consumerGroupRegex = none
    ∧ sampleStaticArgs.consumerGroups.length ≠ 0
    ∧ (sampleStaticArgs.consumerGroups.map Prod.fst).Nodup
    ∧ Event.logOffsetErr "group-a" "conn reset" ∈ (Collect sampleStaticArgs envOffErr).2 :=
  ⟨rfl, rfl, rfl, by decide, by decide,
    (C6_static_failures_isolated sampleStaticArgs envOffErr
        rfl rfl rfl (by decide) (by decide)).2.1
      "group-a" ["t"] "conn reset" (by decide) (by decide) rfl⟩

theorem C7_zero_partition_group_witness :
    envNoTopics.createClient = .ok ()
    ∧ envNoTopics.createClusterAdmin = .ok ()
    ∧ sampleStaticArgs.consumerGroupRegex = none
    ∧ sampleStaticArgs.consumerGroups.length ≠ 0
    ∧ (sampleStaticArgs.consumerGroups.map Prod.fst).Nodup
    ∧ ("group-a", ["t"]) ∈ sampleStaticArgs.consumerGroups
    ∧ envNoTopics.fillTopicPartitions "group-a" ["t"] = []
    ∧ (Collect sampleStaticArgs envNoTopics).2.count (Event.logNoTopics "group-a") = 1 :=
  ⟨rfl, rfl, rfl, by decide, by decide, by decide, rfl,
    (C7_zero_partition_group sampleStaticArgs envNoTopics "group-a" ["t"]
      rfl rfl rfl (by decide) (by decide) (by decide) rfl).2.1⟩

theorem C8_close_on_every_path_witness :
    sampleEnv.createClient = .ok ()
    ∧ Event.closeClient ∈ (Collect sampleRegexArgs sampleEnv).2 :=
  ⟨rfl, (C8_close_on_every_path sampleRegexArgs sampleEnv rfl).2.1⟩

theorem C9_describe_id_list_witness :
    sampleEnv.createClient = .ok ()
    ∧ sampleEnv.createClusterAdmin = .ok ()
    ∧ sampleRegexArgs.consumerGroupRegex = some sampleRegex
    ∧ sampleEnv.listConsumerGroups = .ok sampleKeys
    ∧ sampleKeys ≠ []
    ∧ (List.replicate sampleKeys.length "" ++ sampleKeys).length = 2 * sampleKeys.length :=
  ⟨rfl, rfl, rfl, rfl, by decide,
    (C9_describe_id_list sampleRegexArgs sampleEnv sampleRegex sampleKeys
      rfl rfl rfl rfl (by decide)).2.2.1⟩

theorem C10_dead_error_branch_witness :
    sampleEnv.createClient = .ok ()
    ∧ sampleEnv.createClusterAdmin = .ok ()
    ∧ sampleRegexArgs.consumerGroupRegex = some sampleRegex
    ∧ (collectBody sampleRegexArgs sampleEnv (some "x")).1 =
        .error ("failed to create cluster admin from client: " ++ "x") :=
  ⟨rfl, rfl, rfl,
    (C10_dead_error_branch sampleRegexArgs sampleEnv sampleRegex "x" rfl rfl rfl).2⟩

end ConOffsetCollect
